import Mathlib

/-!
Verification development for the media synchronization / cache / streaming
engine of the `data_collection` repository.

The definitions below are a shallow embedding of:
* `src/api/common/mcap_loader.py` (class `McapReader`): container summary
  scanning, decoding, frame synchronization, the bounded cache with its
  producer loop, seeking;
* `src/api/router/datafile/datafile.py` (`stream_video_frames`,
  `websocket_stream`): the per-topic streaming task.

Machine integers are modelled as `Nat`/`Int` (Python integers are unbounded),
timestamps as `Int` nanoseconds, wall-clock quantities as `ℚ`.  Python
exceptions are modelled with `Except String`; Python `None` with `Option`.
External codecs (PyAV's H.264 decoder, cv2's JPEG encoder) are taken as
oracle parameters since their implementations live outside this repository.
-/

namespace DataCollection

/-- A decoded image frame: the result of `np.frombuffer(...).reshape(...)`
(possibly channel-reordered).  `data` is the flat byte buffer, so
`data.length` plays the role of `ndarray.nbytes` for `uint8` images. -/
structure Frame where
  height : Nat
  width : Nat
  channels : Nat
  data : List Nat
deriving Repr, DecidableEq

/-- The decoded protobuf payload of one container message, as accessed by
`McapReader._process_video_message` (`proto_msg.height`, `.encoding`,
`.format`, `.data`, ...). -/
inductive ProtoMsg
  | rawImage (height width : Nat) (encoding : String) (data : List Nat)
  | compressedVideo (format : String) (data : List Nat)
  | other
deriving Repr, DecidableEq

/-- One message yielded by `reader.iter_decoded_messages`: the schema name,
the channel topic, `message.log_time` and the decoded payload. -/
structure Msg where
  schemaName : String
  topic : String
  logTime : Int
  proto : ProtoMsg
deriving Repr, DecidableEq

/-- Python `dict` assignment `d[k] = v` on an association list: overwrite in
place when the key is present, append otherwise (insertion order kept). -/
def dictPut {κ β : Type} [DecidableEq κ] (d : List (κ × β)) (k : κ) (v : β) :
    List (κ × β) :=
  if d.any (fun kv => kv.1 = k) then
    d.map (fun kv => if kv.1 = k then (k, v) else kv)
  else d ++ [(k, v)]

/-- Python `d.get(k)` / `d[k]` lookup on an association list. -/
def dictGet {κ β : Type} [DecidableEq κ] (d : List (κ × β)) (k : κ) : Option β :=
  (d.find? (fun kv => decide (kv.1 = k))).map Prod.snd

/-- Python's `str.lower()` (`encoding.lower()`, `format.lower()`), modelled
on the character list of the string (the byte-position recursion of
`String.map` is observationally the same and does not reduce in the
kernel).  Only ASCII names are ever compared against it in the source. -/
def strLower (s : String) : String := ⟨s.data.map Char.toLower⟩

/-- `cv2.cvtColor(img, cv2.COLOR_RGB2BGR)` on the flat `H×W×3` buffer:
swap the first and third byte of every pixel triple. -/
def rgbToBgr : List Nat → List Nat
  | r :: g :: b :: rest => b :: g :: r :: rgbToBgr rest
  | l => l

/-- `McapReader._process_video_message` (mcap_loader.py lines 141-178).
`.ok none` is the logged, non-fatal "no frame" result; `.error` is an
uncaught Python exception (`reshape` size mismatch, attribute access on a
payload that does not match the schema name).  `h264Decode` is the PyAV
decode pipeline; its failures are caught by the source and turned into
`None`, hence the `Option` result. -/
def processVideoMessage (h264Decode : List Nat → Option Frame)
    (schemaName : String) (proto : ProtoMsg) : Except String (Option Frame) :=
  if schemaName = "foxglove.RawImage" then
    match proto with
    | .rawImage h w enc data =>
      if strLower enc = "rgb8" then
        if data.length = h * w * 3 then .ok (some ⟨h, w, 3, rgbToBgr data⟩)
        else .error "ValueError: cannot reshape array"
      else if strLower enc = "bgr8" then
        if data.length = h * w * 3 then .ok (some ⟨h, w, 3, data⟩)
        else .error "ValueError: cannot reshape array"
      else if strLower enc = "mono8" then
        if data.length = h * w then .ok (some ⟨h, w, 1, data⟩)
        else .error "ValueError: cannot reshape array"
      else .ok none
    | _ => .error "AttributeError"
  else if schemaName = "foxglove.CompressedVideo" then
    match proto with
    | .compressedVideo fmt data =>
      if strLower fmt = "h264" then .ok (h264Decode data)
      else .ok none
    | _ => .error "AttributeError"
  else .ok none

/-- A sealed frame group (one value of `synchronized_frames`):
`{'timestamp': current_base_time, 'topics': current_group.copy()}`. -/
structure FrameGroup where
  timestamp : Option Int
  topics : List (String × Option Frame)
deriving Repr, DecidableEq

/-- The `McapReader` state visible to `load_frames` / seeking, plus the
loop-local variables of `load_frames` (`current_group`, `current_base_time`,
`frame_index`). -/
structure LoadState where
  maxCacheCount : Nat
  /-- `next_load_count = max(int(self.max_cache_count * 0.3), 1)`; the float
  product rounds to `3*m/10` at every relevant capacity (it does at the
  default 300, giving 90). -/
  nextLoadCount : Nat
  toleranceNs : Int
  synchronizedFrames : List (Nat × FrameGroup)
  indexTimeDict : List (Nat × Option Int)
  cacheStart : Option Nat
  cacheEnd : Nat
  /-- playback cursor `current_frame_index`, written by the consumer. -/
  currentFrameIndex : Nat
  targetFrame : Int
  /-- `file_info.video_frame_count`, read by `get_index_by_time`. -/
  videoFrameCount : Int
  -- `load_frames` locals
  currentGroup : List (String × Option Frame)
  currentBaseTime : Option Int
  frameIndex : Nat
deriving Repr, DecidableEq

/-- External writes observed by one producer iteration: the stop event and
the values of the consumer-written fields at that moment. -/
structure Env where
  stopLoad : Bool
  currentFrameIndex : Nat
  targetFrame : Int
deriving Repr, DecidableEq

/-- Refresh the consumer-written fields from the environment (these are
plain attribute reads in the Python loop). -/
def applyEnv (s : LoadState) (e : Env) : LoadState :=
  { s with currentFrameIndex := e.currentFrameIndex, targetFrame := e.targetFrame }

/-- The group-sealing branch of `load_frames` (lines 202-215): store the
non-empty `current_group` at `frame_index`, update the bookkeeping, then
start a new group based at `timestamp`. -/
def sealAndStart (s : LoadState) (topic : String) (timestamp : Int)
    (frame : Option Frame) : LoadState :=
  let s1 :=
    if s.currentGroup = [] then s
    else
      { s with
        synchronizedFrames :=
          dictPut s.synchronizedFrames s.frameIndex
            ⟨s.currentBaseTime, s.currentGroup⟩
        indexTimeDict := dictPut s.indexTimeDict s.frameIndex s.currentBaseTime
        cacheEnd := s.frameIndex
        -- `if self.cache_start is None: self.cache_start = frame_index`
        cacheStart := some (s.cacheStart.getD s.frameIndex)
        frameIndex := s.frameIndex + 1 }
  { s1 with currentBaseTime := some timestamp, currentGroup := [(topic, frame)] }

/-- The synchronizer step of `load_frames` (lines 201-217): a message joins
the open group when its timestamp is within `tolerance_ns` of the fixed base,
otherwise the group is sealed and a new one starts. -/
def groupStep (s : LoadState) (topic : String) (timestamp : Int)
    (frame : Option Frame) : LoadState :=
  match s.currentBaseTime with
  | none => sealAndStart s topic timestamp frame
  | some b =>
    if |timestamp - b| > s.toleranceNs then sealAndStart s topic timestamp frame
    else { s with currentGroup := dictPut s.currentGroup topic frame }

/-- Remove the cache entries whose key lies in `[lo, hi)`
(`for i in range(lo, hi): self.synchronized_frames.pop(i, None)`). -/
def evictRange (c : List (Nat × FrameGroup)) (lo hi : Nat) :
    List (Nat × FrameGroup) :=
  c.filter (fun kv => ¬ (lo ≤ kv.1 ∧ kv.1 < hi))

/-- One iteration body of the throttle loop (lines 230-242).  `.error`
models the `TypeError` a fired branch would raise if `cache_start` were
still `None`. -/
def throttleBody (needRelease : Nat) (s : LoadState) : Except String LoadState :=
  match
    (if s.targetFrame > 0 ∧ s.targetFrame ≥ (s.cacheEnd : Int) then
      match s.cacheStart with
      | none => Except.error "TypeError"
      | some cs =>
        Except.ok { s with
          synchronizedFrames := evictRange s.synchronizedFrames cs s.frameIndex
          cacheStart := some s.frameIndex }
    else Except.ok s) with
  | .error e => .error e
  | .ok s1 =>
    if s1.currentFrameIndex > needRelease then
      match s1.cacheStart with
      | none => .error "TypeError"
      | some cs =>
        .ok { s1 with
          synchronizedFrames :=
            evictRange s1.synchronizedFrames cs (cs + s1.nextLoadCount)
          cacheStart := some (cs + s1.nextLoadCount) }
    else .ok s1

/-- Result of the throttle loop: `next` exits the `while`, `blocked` stands
for the loop polling forever (the 20 ms sleep with no possible progress),
`err` for an uncaught exception. -/
inductive ThrottleRes
  | next (s : LoadState)
  | blocked (s : LoadState)
  | err (e : String) (s : LoadState)
deriving Repr, DecidableEq

/-- The throttle loop of `load_frames` (lines 228-243):
`while not stop_load.is_set() and len(synchronized_frames) >= max_cache_count`.
An iteration that frees no entry leaves the (environment-fixed) loop
conditions unchanged, so the loop would poll forever: `blocked`.  `fuel`
only bounds the number of productive iterations; each one strictly shrinks
the cache, so `length + 2` is enough fuel on every reachable state. -/
def throttleLoop (stop : Bool) (needRelease : Nat) :
    Nat → LoadState → ThrottleRes
  | 0, s => .blocked s
  | fuel + 1, s =>
    if stop ∨ s.synchronizedFrames.length < s.maxCacheCount then .next s
    else
      match throttleBody needRelease s with
      | .error e => .err e s
      | .ok s' =>
        if s'.synchronizedFrames.length < s.synchronizedFrames.length then
          throttleLoop stop needRelease fuel s'
        else .blocked s'

/-- Outcome of one message iteration of the producer loop. -/
inductive StepRes
  | stopped (s : LoadState)
  | next (s : LoadState)
  | blocked (s : LoadState)
  | err (e : String) (s : LoadState)
deriving Repr, DecidableEq

/-- The post-decode part of one producer iteration: synchronize the message
into the current group (lines 201-217), then run the throttle loop with
`need_release_index = max(frame_index - next_load_count, 0)` (line 219).
The first component is the state right after the grouping/bookkeeping
phase — the in-iteration peak of the cache size. -/
def loadStepFrame (s : LoadState) (topic : String) (timestamp : Int)
    (frame : Option Frame) : LoadState × StepRes :=
  let s1 := groupStep s topic timestamp frame
  let needRelease := s1.frameIndex - s1.nextLoadCount
  (s1,
    match throttleLoop false needRelease (s1.synchronizedFrames.length + 2) s1 with
    | .next s2 => .next s2
    | .blocked s2 => .blocked s2
    | .err e s2 => .err e s2)

/-- One full iteration of the `for ... in iter_decoded_messages` loop of
`load_frames`: check the stop event (line 194), decode (line 197), then
synchronize and throttle. -/
def loadStep (h264Decode : List Nat → Option Frame) (s : LoadState)
    (m : Msg) (e : Env) : LoadState × StepRes :=
  let s0 := applyEnv s e
  if e.stopLoad then (s0, .stopped s0)
  else
    match processVideoMessage h264Decode m.schemaName m.proto with
    | .error msg => (s0, .err msg s0)
    | .ok frame => loadStepFrame s0 m.topic m.logTime frame

/-- The initialization of `load_frames` (lines 181-185): reset the locals,
clear the cache, unset `cache_start`. -/
def loadFramesInit (s : LoadState) (startFrame : Nat) : LoadState :=
  { s with
    currentGroup := []
    currentBaseTime := none
    frameIndex := startFrame
    synchronizedFrames := []
    cacheStart := none }

/-- All states reached while running the producer loop over a list of
messages (with, for each message, the environment it observes): for every
message both the post-grouping peak state and the post-throttle state are
recorded; the trace ends when the loop stops, blocks or raises. -/
def loadTrace (h264Decode : List Nat → Option Frame) (s : LoadState) :
    List (Msg × Env) → List LoadState
  | [] => []
  | (m, e) :: rest =>
    match loadStep h264Decode s m e with
    | (p, .next s') => p :: s' :: loadTrace h264Decode s' rest
    | (p, .stopped s') => [p, s']
    | (p, .blocked s') => [p, s']
    | (p, .err _ s') => [p, s']

/-- The final state of a run of the producer loop. -/
def loadRun (h264Decode : List Nat → Option Frame) (s : LoadState) :
    List (Msg × Env) → LoadState
  | [] => s
  | (m, e) :: rest =>
    match loadStep h264Decode s m e with
    | (_, .next s') => loadRun h264Decode s' rest
    | (_, .stopped s') => s'
    | (_, .blocked s') => s'
    | (_, .err _ s') => s'

/-- Outcome of `seek_to_frame_index` up to its first blocking point:
`hit` is the fast cache-hit return; `restartLoad ts` the
`_safe_stop_and_restart(start_ts, frame_index)` path; `waitLoad` the
"waiting for loading" path; `errNone` an exception swallowed by the
`except` handler (the function then returns `None`). -/
inductive SeekOutcome
  | hit (fg : FrameGroup)
  | restartLoad (startTs : Int)
  | waitLoad
  | errNone
deriving Repr, DecidableEq

/-- `McapReader.seek_to_frame_index` (lines 267-289), modelled up to the
first blocking wait.  `target_frame` is set first; the cache-hit test
`cache_start <= frame_index < cache_end` raises `TypeError` when
`cache_start` is `None` (caught, returning `None`); on a hit the cursor is
advanced before the dictionary lookup. -/
def seekToFrameIndex (s : LoadState) (frameIndex : Nat) :
    SeekOutcome × LoadState :=
  let s := { s with targetFrame := (frameIndex : Int) }
  match s.cacheStart with
  | none => (.errNone, s)
  | some cs =>
    if cs ≤ frameIndex ∧ frameIndex < s.cacheEnd then
      let s := { s with currentFrameIndex := frameIndex + 1 }
      match dictGet s.synchronizedFrames frameIndex with
      | some fg => (.hit fg, s)
      | none => (.errNone, s)
    else
      match dictGet s.indexTimeDict frameIndex with
      | some (some ts) => (.restartLoad ts, s)
      | _ => (.waitLoad, s)

/-- Python `min(iterable, key=...)` over the `index_time_dict` items with
key `abs(value - timeNs)`: left fold keeping the first minimum. -/
def pyMinByDist (timeNs : Int) : List (Nat × Int) → Option (Nat × Int)
  | [] => none
  | kv :: rest =>
    some (rest.foldl
      (fun acc x => if |x.2 - timeNs| < |acc.2 - timeNs| then x else acc) kv)

/-- Resolve the `Option Int` recorded base times of `index_time_dict` to
plain integers; a `None` value would raise `TypeError` inside the `max`
comparison / the `abs` of the `min` key function. -/
def collectTimes : List (Nat × Option Int) → Option (List (Nat × Int))
  | [] => some []
  | (_, none) :: _ => none
  | (k, some v) :: rest =>
    match collectTimes rest with
    | none => none
    | some l => some ((k, v) :: l)

/-- `McapReader.get_index_by_time` (lines 306-315).  An empty dict raises
`ValueError` in `max()`.  When `time_ns` exceeds the newest recorded
timestamp, `target_frame` is set to `video_frame_count - 1`; the returned
index is always the `min`-by-distance key. -/
def getIndexByTime (s : LoadState) (timeNs : Int) :
    Except String (Option Nat × LoadState) :=
  if s.cacheStart.isSome then
    match collectTimes s.indexTimeDict with
    | none => .error "TypeError"
    | some entries =>
      match (entries.map Prod.snd).max? with
      | none => .error "ValueError: max() arg is an empty sequence"
      | some maxRecordedNs =>
        let s :=
          if timeNs > maxRecordedNs then
            { s with targetFrame := s.videoFrameCount - 1 }
          else s
        match pyMinByDist timeNs entries with
        | some kv => .ok (some kv.1, s)
        | none => .error "ValueError: min() arg is an empty sequence"
  else .ok (none, s)

/-! ### Container summary scanning (`McapReader.get_file_info`) -/

/-- One channel of the container summary together with its message count
(`summary.channels` joined with `summary.statistics.channel_message_counts`
and `summary.schemas`). -/
structure ChannelRec where
  topic : String
  schemaName : String
  msgCount : Nat
deriving Repr, DecidableEq

/-- The fields of the container summary read by `get_file_info`.
`message_start_time or 0` maps `None` to 0. -/
structure SummaryRec where
  messageStartTime : Option Int
  messageEndTime : Option Int
  channels : List ChannelRec
deriving Repr, DecidableEq

/-- `TopicInfo(topic=..., msg_count=..., fps=...)`. -/
structure TopicInfo where
  topic : String
  msgCount : Nat
  fps : ℚ
deriving Repr, DecidableEq

/-- The `McapInfo` result of `get_file_info` (annotations/metadata are
loaded by external readers and not modelled). -/
structure McapInfo where
  startNs : Int
  endNs : Int
  durationSec : ℚ
  topicInfos : List TopicInfo
  videoTopics : List String
  calibrationTopics : List String
  videoFps : ℚ
  videoFrameCount : Int
deriving Repr, DecidableEq

/-- `round(x, 2)` on exact rationals.  (Python rounds ties to even; the
difference can only show at exact half-cent ties and no claim depends on
it.) -/
def roundTo2 (q : ℚ) : ℚ := (round (q * 100) : ℤ) / 100

/-- Accumulator of the channel loop of `get_file_info` (lines 64-85). -/
structure FileScanAcc where
  videoTopics : List String
  calibrationTopics : List String
  fps : ℚ
  minVideoCount : Option Nat
  topicInfos : List TopicInfo
deriving Repr, DecidableEq

/-- The channel classification loop of `get_file_info`: compute per-channel
fps (a zero duration with more than one message raises `ZeroDivisionError`),
classify into video/calibration, and track the smallest video-channel
message count. -/
def scanChannels (durationSec : ℚ) :
    FileScanAcc → List ChannelRec → Except String FileScanAcc
  | acc, [] => .ok acc
  | acc, ch :: rest =>
    match
      (if ch.msgCount > 1 then
        if durationSec = 0 then
          Except.error "ZeroDivisionError: float division by zero"
        else Except.ok (roundTo2 ((ch.msgCount : ℚ) / durationSec))
      else Except.ok (0 : ℚ)) with
    | .error e => .error e
    | .ok fps =>
      let acc :=
        if ch.schemaName = "foxglove.RawImage" ∨
            ch.schemaName = "foxglove.CompressedVideo" then
          if ch.topic ∈ ["/camera/depth/depth"] then acc
          else
            { acc with
              videoTopics := acc.videoTopics ++ [ch.topic]
              fps := fps
              minVideoCount :=
                match acc.minVideoCount with
                | none => some ch.msgCount
                | some m => if ch.msgCount < m then some ch.msgCount else some m }
        else if ch.schemaName = "foxglove.CameraCalibration" ∨
            ch.schemaName = "robot_data.CameraParameters" then
          { acc with calibrationTopics := acc.calibrationTopics ++ [ch.topic] }
        else acc
      scanChannels durationSec
        { acc with topicInfos := acc.topicInfos ++ [⟨ch.topic, ch.msgCount, fps⟩] }
        rest

/-- `McapReader.get_file_info` (lines 56-102).  With no video channel,
`min_video_count` stays `None` and `min_video_count - 1` raises
`TypeError` before any `McapInfo` is built. -/
def getFileInfo (summary : SummaryRec) : Except String McapInfo :=
  let startNs := summary.messageStartTime.getD 0
  let endNs := summary.messageEndTime.getD 0
  let durationSec : ℚ := ((endNs - startNs : Int) : ℚ) / 1000000000
  match scanChannels durationSec ⟨[], [], 0, none, []⟩ summary.channels with
  | .error e => .error e
  | .ok acc =>
    match acc.minVideoCount with
    | none =>
      .error "TypeError: unsupported operand type(s) for -: 'NoneType' and 'int'"
    | some n =>
      .ok
        { startNs := startNs
          endNs := endNs
          durationSec := durationSec
          topicInfos := acc.topicInfos
          videoTopics := acc.videoTopics
          calibrationTopics := acc.calibrationTopics
          videoFps := acc.fps
          videoFrameCount := (n : Int) - 1 }

/-- A channel classified as video by `get_file_info`: an image schema whose
topic is not in the explicit exclusion list. -/
def isVideoChannel (ch : ChannelRec) : Prop :=
  (ch.schemaName = "foxglove.RawImage" ∨
    ch.schemaName = "foxglove.CompressedVideo") ∧
  ch.topic ∉ ["/camera/depth/depth"]

instance : DecidablePred isVideoChannel := fun ch => by
  unfold isVideoChannel; infer_instance

/-! ### Streaming task (`datafile.py`: `websocket_stream`, `stream_video_frames`) -/

/-- One message of the streaming loop together with the wall-clock readings
the iteration observes: `elapsedAtCheck` is `time.time() - start_time` at the
duration check, `actualInterval` is `current_time - last_frame_time` at the
rate-control point. -/
structure StreamInput where
  msg : Msg
  elapsedAtCheck : ℚ
  actualInterval : ℚ
deriving Repr, DecidableEq

/-- One emitted `"frame"`-type websocket message (the fields that are not
wall-clock or encoding statistics). -/
structure SentFrame where
  frameIndex : Nat
  timestamp : Int
  topic : String
deriving Repr, DecidableEq

/-- Loop state of `stream_video_frames`: the sent-frame counter and the
frames sent so far. -/
structure StreamState where
  frameCount : Nat
  sent : List SentFrame
deriving Repr, DecidableEq

/-- The duration-cap test of `stream_video_frames` (lines 3035-3040):
only performed when a cap is set and `frame_count < 10 or frame_count % 10
== 0`. -/
def durationCapHit (maxDurationSeconds : Option ℚ) (frameCount : Nat)
    (elapsed : ℚ) : Bool :=
  match maxDurationSeconds with
  | some d => (frameCount < 10 ∨ frameCount % 10 = 0) ∧ elapsed ≥ d
  | none => false

/-- The per-message loop of `stream_video_frames` (lines 3027-3104):
break on the frame cap, break on the (periodically checked) duration cap,
decode — all per-message exceptions are caught and skipped —, drop `None`
frames, drop frames over 30 MB, drop frames the encoder rejects, otherwise
send one `"frame"` message carrying `frame_index = frame_count` and bump the
counter.  `encode` is `encode_image_to_base64` (cv2 JPEG + base64, an
external codec; it returns `None` on failure). -/
def streamRun (h264Decode : List Nat → Option Frame)
    (encode : Frame → Option String) (topic : String) (maxFrames : Nat)
    (maxDurationSeconds : Option ℚ) :
    StreamState → List StreamInput → StreamState
  | st, [] => st
  | st, inp :: rest =>
    if st.frameCount ≥ maxFrames then st
    else if durationCapHit maxDurationSeconds st.frameCount inp.elapsedAtCheck
    then st
    else
      let st' :=
        match processVideoMessage h264Decode inp.msg.schemaName inp.msg.proto with
        | .error _ => st
        | .ok none => st
        | .ok (some frame) =>
          if frame.data.length > 30 * 1024 * 1024 then st
          else
            match encode frame with
            | none => st
            | some _ =>
              { frameCount := st.frameCount + 1
                sent := st.sent ++ [⟨st.frameCount, inp.msg.logTime, topic⟩] }
      streamRun h264Decode encode topic maxFrames maxDurationSeconds st' rest

/-- The cap applied by `websocket_stream` before starting the task
(line 2818): `max_frames = min(max_frames, 2000)`. -/
def effectiveMaxFrames (requested : Nat) : Nat := min requested 2000

/-- The rate-control decision after one sent frame (lines 3086-3095
together with `need_frame_rate_control = frame_interval > 0.01`, line 3017):
`some t` means the task sleeps `t` seconds, `none` means it does not sleep. -/
def rateControlSleep (frameInterval actualInterval : ℚ) : Option ℚ :=
  if frameInterval > mkRat 1 100 then
    if actualInterval < frameInterval then
      if frameInterval - actualInterval > mkRat 1 1000 then
        some (min (frameInterval - actualInterval) (mkRat 1 20))
      else none
    else none
  else none

/-! ### Helper lemmas -/

theorem find?_map_put {κ β : Type} [DecidableEq κ] (k : κ) (v : β) :
    ∀ (d : List (κ × β)), d.any (fun kv => kv.1 = k) = true →
      (d.map (fun kv => if kv.1 = k then (k, v) else kv)).find?
          (fun kv => decide (kv.1 = k)) = some (k, v) := by
  intro d
  induction d with
  | nil => intro h; simp at h
  | cons kv rest ih =>
    intro h
    rw [List.map_cons]
    by_cases hk : kv.1 = k
    · rw [if_pos hk]
      exact List.find?_cons_of_pos _ (by simp)
    · rw [if_neg hk]
      rw [List.find?_cons_of_neg _ (by simp [hk])]
      apply ih
      rw [List.any_cons] at h
      simpa [hk] using h

theorem find?_append_put {κ β : Type} [DecidableEq κ] (k : κ) (v : β) :
    ∀ (d : List (κ × β)), d.any (fun kv => kv.1 = k) = false →
      (d ++ [(k, v)]).find? (fun kv => decide (kv.1 = k)) = some (k, v) := by
  intro d
  induction d with
  | nil => intro _; exact List.find?_cons_of_pos _ (by simp)
  | cons kv rest ih =>
    intro h
    rw [List.any_cons, Bool.or_eq_false_iff] at h
    obtain ⟨h1, h2⟩ := h
    rw [List.cons_append]
    rw [List.find?_cons_of_neg _ (by simpa using h1)]
    exact ih h2

/-- Overwriting insert followed by lookup of the same key: last write wins. -/
theorem dictGet_dictPut {κ β : Type} [DecidableEq κ] (d : List (κ × β))
    (k : κ) (v : β) : dictGet (dictPut d k v) k = some v := by
  unfold dictGet dictPut
  by_cases hany : d.any (fun kv => kv.1 = k) = true
  · rw [if_pos hany, find?_map_put k v d hany]
    rfl
  · rw [if_neg hany, find?_append_put k v d (Bool.eq_false_iff.mpr hany)]
    rfl

theorem dictPut_length_le {κ β : Type} [DecidableEq κ] (d : List (κ × β))
    (k : κ) (v : β) : (dictPut d k v).length ≤ d.length + 1 := by
  unfold dictPut
  split
  · simp
  · simp

/-! ### C2: the synchronizer's tolerance window -/

/-- C2: with an open group of fixed base `b`, a message joins the group iff
`|timestamp - b| ≤ tolerance_ns` (conjunct 1 and, for the other direction,
conjunct 2: beyond tolerance the non-empty group is sealed at the current
`frame_index` and a fresh group based at the new timestamp is started), and
a repeated topic inside one group overwrites the earlier frame. -/
theorem c2_synchronizer_tolerance (s : LoadState) (topic : String)
    (timestamp : Int) (frame : Option Frame) (b : Int)
    (hb : s.currentBaseTime = some b) :
    (|timestamp - b| ≤ s.toleranceNs →
      groupStep s topic timestamp frame =
        { s with currentGroup := dictPut s.currentGroup topic frame }) ∧
    (s.toleranceNs < |timestamp - b| → s.currentGroup ≠ [] →
      groupStep s topic timestamp frame =
        { s with
          synchronizedFrames := dictPut s.synchronizedFrames s.frameIndex
            ⟨s.currentBaseTime, s.currentGroup⟩
          indexTimeDict := dictPut s.indexTimeDict s.frameIndex s.currentBaseTime
          cacheEnd := s.frameIndex
          cacheStart := some (s.cacheStart.getD s.frameIndex)
          frameIndex := s.frameIndex + 1
          currentBaseTime := some timestamp
          currentGroup := [(topic, frame)] }) ∧
    (|timestamp - b| ≤ s.toleranceNs →
      dictGet (groupStep s topic timestamp frame).currentGroup topic =
        some frame) := by
  refine ⟨?_, ?_, ?_⟩
  · intro hle
    simp only [groupStep, hb, gt_iff_lt]
    rw [if_neg (not_lt.mpr hle)]
  · intro hgt hne
    simp only [groupStep, hb, gt_iff_lt]
    rw [if_pos hgt]
    simp only [sealAndStart, if_neg hne]
    rw [hb]
  · intro hle
    simp only [groupStep, hb, gt_iff_lt]
    rw [if_neg (not_lt.mpr hle)]
    exact dictGet_dictPut _ _ _

/-- Concrete instance for `c2_synchronizer_tolerance`: base 1000000,
tolerance 3000000 (the 3 ms default), a message 2 ms away joins the group
and overwrites its topic. -/
def c2State : LoadState :=
  { maxCacheCount := 300, nextLoadCount := 90, toleranceNs := 3000000
    synchronizedFrames := [], indexTimeDict := [], cacheStart := none
    cacheEnd := 0, currentFrameIndex := 0, targetFrame := 0
    videoFrameCount := 0, currentGroup := [("/cam", none)]
    currentBaseTime := some 1000000, frameIndex := 0 }

theorem c2_witness :
    groupStep c2State "/cam" 3000000 (some ⟨1, 1, 1, [7]⟩) =
      { c2State with
        currentGroup := dictPut c2State.currentGroup "/cam" (some ⟨1, 1, 1, [7]⟩) } :=
  (c2_synchronizer_tolerance c2State "/cam" 3000000 (some ⟨1, 1, 1, [7]⟩)
    1000000 rfl).1 (by decide)

/-! ### C5: seeking to a cached frame index -/

/-- C5: for `cache_start ≤ idx < cache_end` with the group present in the
cache, `seek_to_frame_index(idx)` takes the fast path: it returns the cached
`FrameGroup`, sets the playback cursor to `idx + 1` (and `target_frame` to
`idx`), and never reaches the stop-join-restart or wait paths. -/
theorem c5_seek_cached_hit (s : LoadState) (idx cs : Nat) (fg : FrameGroup)
    (hcs : s.cacheStart = some cs) (hlo : cs ≤ idx) (hhi : idx < s.cacheEnd)
    (hfg : dictGet s.synchronizedFrames idx = some fg) :
    seekToFrameIndex s idx =
      (.hit fg,
        { s with targetFrame := (idx : Int), currentFrameIndex := idx + 1 }) := by
  unfold seekToFrameIndex
  simp only [hcs]
  rw [if_pos ⟨hlo, hhi⟩]
  simp only [hfg]

def c5State : LoadState :=
  { maxCacheCount := 300, nextLoadCount := 90, toleranceNs := 3000000
    synchronizedFrames := [(0, ⟨some 0, [("/cam", none)]⟩), (1, ⟨some 33000000, []⟩)]
    indexTimeDict := [(0, some 0), (1, some 33000000)], cacheStart := some 0
    cacheEnd := 1, currentFrameIndex := 0, targetFrame := 0
    videoFrameCount := 2, currentGroup := [], currentBaseTime := some 33000000
    frameIndex := 2 }

theorem c5_witness :
    seekToFrameIndex c5State 0 =
      (.hit ⟨some 0, [("/cam", none)]⟩,
        { c5State with targetFrame := 0, currentFrameIndex := 1 }) :=
  c5_seek_cached_hit c5State 0 0 ⟨some 0, [("/cam", none)]⟩ rfl
    (Nat.le_refl 0) (by decide) rfl

/-! ### C7: unknown raw encodings are non-fatal -/

/-- C7: a `RawImage` whose encoding (case-insensitively) is none of `rgb8`,
`bgr8`, `mono8` decodes to `None` without raising, and the producer
iteration on such a message proceeds exactly as a normal iteration carrying
a `None` frame — subsequent processing is unaffected. -/
theorem c7_unknown_encoding_nonfatal (h264Decode : List Nat → Option Frame)
    (h w : Nat) (enc : String) (data : List Nat)
    (h1 : strLower enc ≠ "rgb8") (h2 : strLower enc ≠ "bgr8")
    (h3 : strLower enc ≠ "mono8") :
    processVideoMessage h264Decode "foxglove.RawImage"
        (.rawImage h w enc data) = .ok none ∧
    ∀ (s : LoadState) (tp : String) (ts : Int) (e : Env), e.stopLoad = false →
      loadStep h264Decode s ⟨"foxglove.RawImage", tp, ts, .rawImage h w enc data⟩ e =
        loadStepFrame (applyEnv s e) tp ts none := by
  have hdec : processVideoMessage h264Decode "foxglove.RawImage"
      (.rawImage h w enc data) = .ok none := by
    unfold processVideoMessage
    rw [if_pos rfl]
    simp only [h1, h2, h3, if_false]
  refine ⟨hdec, ?_⟩
  intro s tp ts e he
  unfold loadStep
  rw [he, if_neg Bool.false_ne_true, hdec]

theorem c7_witness :
    processVideoMessage (fun _ => none) "foxglove.RawImage"
      (.rawImage 2 2 "yuv422" [0, 1, 2, 3]) = .ok none :=
  (c7_unknown_encoding_nonfatal (fun _ => none) 2 2 "yuv422" [0, 1, 2, 3]
    (by decide) (by decide) (by decide)).1

/-! ### C9: rate control sleeps only the shortfall -/

/-- C9: the streaming rate control sleeps only when the measured elapsed
interval is strictly below the target inter-frame interval, sleeps at most
the shortfall, and never sleeps when processing already took the full
interval. -/
theorem c9_rate_control_shortfall (frameInterval actualInterval : ℚ) :
    (∀ t, rateControlSleep frameInterval actualInterval = some t →
      actualInterval < frameInterval ∧ t ≤ frameInterval - actualInterval) ∧
    (frameInterval ≤ actualInterval →
      rateControlSleep frameInterval actualInterval = none) := by
  constructor
  · intro t ht
    unfold rateControlSleep at ht
    split at ht
    · split at ht
      · rename_i hlt
        split at ht
        · refine ⟨hlt, ?_⟩
          cases ht
          exact min_le_left _ _
        · exact absurd ht (by simp)
      · exact absurd ht (by simp)
    · exact absurd ht (by simp)
  · intro hge
    unfold rateControlSleep
    split
    · rw [if_neg (not_lt.mpr hge)]
    · rfl

theorem c9_witness :
    (mkRat 1 90 : ℚ) < mkRat 1 30 ∧
      (mkRat 1 45 : ℚ) ≤ mkRat 1 30 - mkRat 1 90 := by
  have heval : rateControlSleep (mkRat 1 30) (mkRat 1 90) = some (mkRat 1 45) := by
    with_unfolding_all rfl
  exact (c9_rate_control_shortfall (mkRat 1 30) (mkRat 1 90)).1 (mkRat 1 45) heval

/-! ### C8: the streaming frame cap -/

theorem streamRun_count_le (h264Decode : List Nat → Option Frame)
    (encode : Frame → Option String) (topic : String) (maxFrames : Nat)
    (maxDurationSeconds : Option ℚ) :
    ∀ (inputs : List StreamInput) (st : StreamState),
      st.frameCount ≤ maxFrames →
      (streamRun h264Decode encode topic maxFrames maxDurationSeconds
          st inputs).frameCount ≤ maxFrames := by
  intro inputs
  induction inputs with
  | nil => intro st h; exact h
  | cons inp rest ih =>
    intro st h
    unfold streamRun
    split
    · exact h
    · split
      · exact h
      · rename_i hnotfull _
        apply ih
        have hlt : st.frameCount < maxFrames := lt_of_not_ge hnotfull
        split
        · exact h
        · exact h
        · split
          · exact h
          · split
            · exact h
            · exact hlt

theorem streamRun_sent_eq_count (h264Decode : List Nat → Option Frame)
    (encode : Frame → Option String) (topic : String) (maxFrames : Nat)
    (maxDurationSeconds : Option ℚ) :
    ∀ (inputs : List StreamInput) (st : StreamState),
      st.sent.length = st.frameCount →
      (streamRun h264Decode encode topic maxFrames maxDurationSeconds
          st inputs).sent.length =
        (streamRun h264Decode encode topic maxFrames maxDurationSeconds
          st inputs).frameCount := by
  intro inputs
  induction inputs with
  | nil => intro st h; exact h
  | cons inp rest ih =>
    intro st h
    unfold streamRun
    split
    · exact h
    · split
      · exact h
      · apply ih
        split
        · exact h
        · exact h
        · split
          · exact h
          · split
            · exact h
            · simp [h]

/-- C8: a stream started with `max_frames = N` sends at most `N` frame-type
messages: the effective cap `min(N, 2000)` set by `websocket_stream` bounds
the counter, the loop breaks as soon as the counter reaches it, and the
counter counts exactly the sent frames. -/
theorem c8_stream_at_most_n_frames (h264Decode : List Nat → Option Frame)
    (encode : Frame → Option String) (topic : String)
    (requestedMaxFrames : Nat) (maxDurationSeconds : Option ℚ)
    (inputs : List StreamInput) :
    (streamRun h264Decode encode topic (effectiveMaxFrames requestedMaxFrames)
        maxDurationSeconds ⟨0, []⟩ inputs).sent.length ≤ requestedMaxFrames := by
  have h1 := streamRun_count_le h264Decode encode topic
    (effectiveMaxFrames requestedMaxFrames) maxDurationSeconds inputs
    ⟨0, []⟩ (Nat.zero_le _)
  have h2 := streamRun_sent_eq_count h264Decode encode topic
    (effectiveMaxFrames requestedMaxFrames) maxDurationSeconds inputs
    ⟨0, []⟩ rfl
  rw [h2]
  exact le_trans h1 (min_le_left _ _)

/-! ### C10: a container with no video channel fails summary construction -/

theorem scanChannels_no_video_min (durationSec : ℚ) :
    ∀ (chs : List ChannelRec) (acc acc' : FileScanAcc),
      (∀ ch ∈ chs, ¬ isVideoChannel ch) →
      scanChannels durationSec acc chs = .ok acc' →
      acc'.minVideoCount = acc.minVideoCount := by
  intro chs
  induction chs with
  | nil =>
    intro acc acc' _ h
    unfold scanChannels at h
    cases h
    rfl
  | cons ch rest ih =>
    intro acc acc' hnv h
    unfold scanChannels at h
    split at h
    · cases h
    · rename_i fps hfps
      have hstep := ih _ _ (fun c hc => hnv c (List.mem_cons_of_mem _ hc)) h
      rw [hstep]
      have hch := hnv ch (List.mem_cons_self _ _)
      split
      · rename_i hschema
        split
        · rfl
        · rename_i hmem
          exact absurd ⟨hschema, hmem⟩ hch
      · split
        · rfl
        · rfl

/-- C10: a container whose summary has no channel classified as video makes
`get_file_info` raise instead of returning a summary: `min_video_count`
stays `None`, so `min_video_count - 1` is a `TypeError` (when a zero
duration makes a per-channel fps computation raise first, construction
still fails with an exception). -/
theorem c10_no_video_raises (summary : SummaryRec)
    (hnv : ∀ ch ∈ summary.channels, ¬ isVideoChannel ch) :
    ∃ e, getFileInfo summary = .error e := by
  simp only [getFileInfo]
  cases hacc : scanChannels
      ((↑(summary.messageEndTime.getD 0 - summary.messageStartTime.getD 0) /
        1000000000 : ℚ))
      ⟨[], [], 0, none, []⟩ summary.channels with
  | error e =>
    exact ⟨e, rfl⟩
  | ok acc =>
    have hmin := scanChannels_no_video_min _ summary.channels _ _ hnv hacc
    have hmin' : acc.minVideoCount = none := hmin
    refine ⟨"TypeError: unsupported operand type(s) for -: 'NoneType' and 'int'", ?_⟩
    simp only [hmin']

def c10Summary : SummaryRec :=
  { messageStartTime := some 0, messageEndTime := some 2000000000
    channels := [⟨"/camera/info", "foxglove.CameraCalibration", 5⟩,
                 ⟨"/camera/depth/depth", "foxglove.RawImage", 60⟩] }

theorem c10_witness : ∃ e, getFileInfo c10Summary = .error e :=
  c10_no_video_raises c10Summary (by decide)

/-! ### C1: the cache never exceeds `max_cache_count` -/

/-- The state carried by a throttle-loop outcome. -/
def ThrottleRes.state : ThrottleRes → LoadState
  | .next s => s
  | .blocked s => s
  | .err _ s => s

/-- The state carried by a producer-iteration outcome. -/
def StepRes.state : StepRes → LoadState
  | .stopped s => s
  | .next s => s
  | .blocked s => s
  | .err _ s => s

theorem throttleBody_ok (needRelease : Nat) (s s' : LoadState)
    (h : throttleBody needRelease s = .ok s') :
    s'.maxCacheCount = s.maxCacheCount ∧
    s'.synchronizedFrames.length ≤ s.synchronizedFrames.length := by
  unfold throttleBody at h
  split at h
  · exact Except.noConfusion h
  · rename_i s1 hs1
    have hfacts1 : s1.maxCacheCount = s.maxCacheCount ∧
        s1.synchronizedFrames.length ≤ s.synchronizedFrames.length := by
      split at hs1
      · split at hs1
        · exact Except.noConfusion hs1
        · cases hs1
          exact ⟨rfl, List.length_filter_le _ _⟩
      · cases hs1
        exact ⟨rfl, le_refl _⟩
    split at h
    · split at h
      · exact Except.noConfusion h
      · cases h
        exact ⟨hfacts1.1, le_trans (List.length_filter_le _ _) hfacts1.2⟩
    · cases h
      exact hfacts1

theorem throttleLoop_state_le (stop : Bool) (needRelease : Nat) :
    ∀ (fuel : Nat) (s : LoadState),
      (throttleLoop stop needRelease fuel s).state.synchronizedFrames.length ≤
          s.synchronizedFrames.length ∧
      (throttleLoop stop needRelease fuel s).state.maxCacheCount =
          s.maxCacheCount := by
  intro fuel
  induction fuel with
  | zero => intro s; exact ⟨le_refl _, rfl⟩
  | succ fuel ih =>
    intro s
    unfold throttleLoop
    split
    · exact ⟨le_refl _, rfl⟩
    · split
      · exact ⟨le_refl _, rfl⟩
      · rename_i s' hs'
        have hb := throttleBody_ok needRelease s s' hs'
        split
        · obtain ⟨h1, h2⟩ := ih s'
          exact ⟨le_trans h1 hb.2, hb.1 ▸ h2⟩
        · exact ⟨hb.2, hb.1⟩

theorem throttleLoop_next_lt (needRelease : Nat) :
    ∀ (fuel : Nat) (s s' : LoadState),
      throttleLoop false needRelease fuel s = .next s' →
      s'.synchronizedFrames.length < s'.maxCacheCount := by
  intro fuel
  induction fuel with
  | zero => intro s s' h; exact ThrottleRes.noConfusion h
  | succ fuel ih =>
    intro s s' h
    unfold throttleLoop at h
    split at h
    · rename_i hcond
      cases h
      rcases hcond with hc | hc
      · exact absurd hc (by simp)
      · exact hc
    · split at h
      · exact ThrottleRes.noConfusion h
      · rename_i s1 hs1
        split at h
        · exact ih s1 s' h
        · exact ThrottleRes.noConfusion h

theorem groupStep_facts (s : LoadState) (topic : String) (timestamp : Int)
    (frame : Option Frame) :
    (groupStep s topic timestamp frame).synchronizedFrames.length ≤
        s.synchronizedFrames.length + 1 ∧
    (groupStep s topic timestamp frame).maxCacheCount = s.maxCacheCount := by
  simp only [groupStep, sealAndStart]
  split
  · split
    · exact ⟨Nat.le_succ _, rfl⟩
    · exact ⟨dictPut_length_le _ _ _, rfl⟩
  · split
    · split
      · exact ⟨Nat.le_succ _, rfl⟩
      · exact ⟨dictPut_length_le _ _ _, rfl⟩
    · exact ⟨Nat.le_succ _, rfl⟩

theorem loadStepFrame_facts (s : LoadState) (topic : String) (timestamp : Int)
    (frame : Option Frame) :
    (loadStepFrame s topic timestamp frame).1.synchronizedFrames.length ≤
        s.synchronizedFrames.length + 1 ∧
    (loadStepFrame s topic timestamp frame).1.maxCacheCount = s.maxCacheCount ∧
    (loadStepFrame s topic timestamp frame).2.state.synchronizedFrames.length ≤
        s.synchronizedFrames.length + 1 ∧
    (loadStepFrame s topic timestamp frame).2.state.maxCacheCount =
        s.maxCacheCount ∧
    (∀ s', (loadStepFrame s topic timestamp frame).2 = .next s' →
      s'.synchronizedFrames.length < s'.maxCacheCount) := by
  obtain ⟨hg1, hg2⟩ := groupStep_facts s topic timestamp frame
  have htl := throttleLoop_state_le false
    ((groupStep s topic timestamp frame).frameIndex -
      (groupStep s topic timestamp frame).nextLoadCount)
    ((groupStep s topic timestamp frame).synchronizedFrames.length + 2)
    (groupStep s topic timestamp frame)
  simp only [loadStepFrame]
  cases htc : throttleLoop false
      ((groupStep s topic timestamp frame).frameIndex -
        (groupStep s topic timestamp frame).nextLoadCount)
      ((groupStep s topic timestamp frame).synchronizedFrames.length + 2)
      (groupStep s topic timestamp frame) with
  | next s2 =>
    rw [htc] at htl
    refine ⟨hg1, hg2, le_trans htl.1 hg1, htl.2.trans hg2, ?_⟩
    intro s' h
    cases h
    exact throttleLoop_next_lt _ _ _ _ htc
  | blocked s2 =>
    rw [htc] at htl
    refine ⟨hg1, hg2, le_trans htl.1 hg1, htl.2.trans hg2, ?_⟩
    intro s' h
    exact StepRes.noConfusion h
  | err e2 s2 =>
    rw [htc] at htl
    refine ⟨hg1, hg2, le_trans htl.1 hg1, htl.2.trans hg2, ?_⟩
    intro s' h
    exact StepRes.noConfusion h

theorem loadStep_facts (h264Decode : List Nat → Option Frame) (s : LoadState)
    (m : Msg) (e : Env) :
    (loadStep h264Decode s m e).1.synchronizedFrames.length ≤
        s.synchronizedFrames.length + 1 ∧
    (loadStep h264Decode s m e).1.maxCacheCount = s.maxCacheCount ∧
    (loadStep h264Decode s m e).2.state.synchronizedFrames.length ≤
        s.synchronizedFrames.length + 1 ∧
    (loadStep h264Decode s m e).2.state.maxCacheCount = s.maxCacheCount ∧
    (∀ s', (loadStep h264Decode s m e).2 = .next s' →
      s'.synchronizedFrames.length < s'.maxCacheCount) := by
  unfold loadStep
  split
  · refine ⟨Nat.le_succ _, rfl, Nat.le_succ _, rfl, ?_⟩
    intro s' h
    exact StepRes.noConfusion h
  · split
    · refine ⟨Nat.le_succ _, rfl, Nat.le_succ _, rfl, ?_⟩
      intro s' h
      exact StepRes.noConfusion h
    · exact loadStepFrame_facts (applyEnv s e) m.topic m.logTime _

theorem loadTrace_bounded (h264Decode : List Nat → Option Frame) :
    ∀ (inputs : List (Msg × Env)) (s : LoadState),
      s.synchronizedFrames.length < s.maxCacheCount →
      ∀ t ∈ loadTrace h264Decode s inputs,
        t.synchronizedFrames.length ≤ s.maxCacheCount := by
  intro inputs
  induction inputs with
  | nil =>
    intro s _ t ht
    simp [loadTrace] at ht
  | cons me rest ih =>
    obtain ⟨m, e⟩ := me
    intro s hs t ht
    have hf := loadStep_facts h264Decode s m e
    unfold loadTrace at ht
    cases hstep : loadStep h264Decode s m e with
    | mk p r =>
      rw [hstep] at hf ht
      cases r with
      | next s' =>
        have hlt : s'.synchronizedFrames.length < s'.maxCacheCount :=
          hf.2.2.2.2 s' rfl
        have hmax : s'.maxCacheCount = s.maxCacheCount := hf.2.2.2.1
        rcases List.mem_cons.mp ht with h1 | h1
        · subst h1
          exact le_trans hf.1 hs
        · rcases List.mem_cons.mp h1 with h2 | h2
          · subst h2
            exact le_of_lt (hmax ▸ hlt)
          · have := ih s' hlt t h2
            exact hmax ▸ this
      | stopped s' =>
        rcases List.mem_cons.mp ht with h1 | h1
        · subst h1
          exact le_trans hf.1 hs
        · rcases List.mem_cons.mp h1 with h2 | h2
          · subst h2
            exact le_trans hf.2.2.1 hs
          · simp at h2
      | blocked s' =>
        rcases List.mem_cons.mp ht with h1 | h1
        · subst h1
          exact le_trans hf.1 hs
        · rcases List.mem_cons.mp h1 with h2 | h2
          · subst h2
            exact le_trans hf.2.2.1 hs
          · simp at h2
      | err e' s' =>
        rcases List.mem_cons.mp ht with h1 | h1
        · subst h1
          exact le_trans hf.1 hs
        · rcases List.mem_cons.mp h1 with h2 | h2
          · subst h2
            exact le_trans hf.2.2.1 hs
          · simp at h2

/-- C1: starting `load_frames` (which clears the cache) with a positive
capacity, every state reached during the producer run — including the peak
right after a FrameGroup insertion, and under any interleaving of consumer
writes and stop requests — holds at most `max_cache_count` live cache
entries: an insertion only happens from a state the throttle loop left
strictly below capacity (or the run has stopped and nothing more is
inserted). -/
theorem c1_cache_bounded (h264Decode : List Nat → Option Frame)
    (s : LoadState) (startFrame : Nat) (inputs : List (Msg × Env))
    (hmax : 1 ≤ s.maxCacheCount) :
    ∀ t ∈ loadTrace h264Decode (loadFramesInit s startFrame) inputs,
      t.synchronizedFrames.length ≤ s.maxCacheCount := by
  have h0 : (loadFramesInit s startFrame).synchronizedFrames.length <
      (loadFramesInit s startFrame).maxCacheCount := by
    simpa [loadFramesInit] using hmax
  intro t ht
  exact loadTrace_bounded h264Decode inputs _ h0 t ht

def c1WitnessState : LoadState :=
  { maxCacheCount := 2, nextLoadCount := 1, toleranceNs := 3000000
    synchronizedFrames := [], indexTimeDict := [], cacheStart := none
    cacheEnd := 0, currentFrameIndex := 0, targetFrame := 0
    videoFrameCount := 0, currentGroup := [], currentBaseTime := none
    frameIndex := 0 }

def c1WitnessInputs : List (Msg × Env) :=
  [(⟨"foxglove.RawImage", "/cam", 0, .rawImage 1 1 "mono8" [7]⟩,
    ⟨false, 0, 0⟩),
   (⟨"foxglove.RawImage", "/cam", 33000000, .rawImage 1 1 "mono8" [7]⟩,
    ⟨false, 0, 0⟩)]

theorem c1_witness :
    (loadTrace (fun _ => none) (loadFramesInit c1WitnessState 0)
        c1WitnessInputs).all
      (fun t => t.synchronizedFrames.length ≤ 2) = true := by
  have h := c1_cache_bounded (fun _ => none) c1WitnessState 0
    c1WitnessInputs (by decide)
  exact List.all_eq_true.mpr (fun t ht => decide_eq_true (h t ht))

/-! ### C4: the steady-state trim evicts exactly one batch -/

theorem range'_filter_evict (b : Nat) :
    ∀ (a m : Nat), b ≤ m →
      (List.range' a m).filter (fun i => decide (¬ (a ≤ i ∧ i < a + b))) =
        List.range' (a + b) (m - b) := by
  induction b with
  | zero =>
    intro a m _
    have hall : ∀ x ∈ List.range' a m,
        (decide (¬ (a ≤ x ∧ x < a + 0)) : Bool) = true := by
      intro x _
      simp only [decide_eq_true_eq]
      omega
    rw [List.filter_eq_self.mpr hall]
    simp
  | succ b ih =>
    intro a m hm
    obtain ⟨m', rfl⟩ : ∃ m', m = m' + 1 := ⟨m - 1, by omega⟩
    rw [List.range'_succ]
    rw [List.filter_cons]
    rw [if_neg (by simp only [decide_eq_true_eq, not_not]; omega)]
    have hcongr : ∀ x ∈ List.range' (a + 1) m',
        (decide (¬ (a ≤ x ∧ x < a + (b + 1))) : Bool) =
          decide (¬ (a + 1 ≤ x ∧ x < a + 1 + b)) := by
      intro x hx
      have hx1 : a + 1 ≤ x := (List.mem_range'_1.mp hx).1
      simp only [decide_eq_decide]
      omega
    rw [List.filter_congr hcongr, ih (a + 1) m' (by omega)]
    congr 1
    · omega
    · omega

theorem evictRange_mapped (g : Nat → FrameGroup) (a m lo hi : Nat) :
    evictRange ((List.range' a m).map (fun i => (i, g i))) lo hi =
      ((List.range' a m).filter (fun i => decide (¬ (lo ≤ i ∧ i < hi)))).map
        (fun i => (i, g i)) := by
  unfold evictRange
  rw [List.filter_map]
  rfl

/-- C4: with a full contiguous cache (`max_cache_count` entries keyed
`[cs, cs + max)`), the seek-ahead sweep not applicable, and the cursor past
`frame_index - next_load_count`, one throttle pass evicts exactly the
`next_load_count = max(3·max_cache_count/10, 1)` oldest entries — the
contiguous range `[cache_start, cache_start + next_load_count)` — in a
single batch and advances `cache_start` by exactly that amount. -/
theorem c4_steady_state_trim (s : LoadState) (cs : Nat) (g : Nat → FrameGroup)
    (hframes : s.synchronizedFrames =
      (List.range' cs s.maxCacheCount).map (fun i => (i, g i)))
    (hcs : s.cacheStart = some cs)
    (hmax : 1 ≤ s.maxCacheCount)
    (hbatch : s.nextLoadCount = Nat.max (3 * s.maxCacheCount / 10) 1)
    (hsweep : ¬ (s.targetFrame > 0 ∧ s.targetFrame ≥ (s.cacheEnd : Int)))
    (hcursor : s.currentFrameIndex > s.frameIndex - s.nextLoadCount) :
    throttleLoop false (s.frameIndex - s.nextLoadCount)
        (s.synchronizedFrames.length + 2) s =
      .next { s with
        synchronizedFrames :=
          (List.range' (cs + s.nextLoadCount)
            (s.maxCacheCount - s.nextLoadCount)).map (fun i => (i, g i))
        cacheStart := some (cs + s.nextLoadCount) } ∧
    ((List.range' (cs + s.nextLoadCount)
        (s.maxCacheCount - s.nextLoadCount)).map (fun i => (i, g i))).length =
      s.maxCacheCount - s.nextLoadCount ∧
    s.synchronizedFrames.length -
        ((List.range' (cs + s.nextLoadCount)
          (s.maxCacheCount - s.nextLoadCount)).map (fun i => (i, g i))).length =
      s.nextLoadCount := by
  have hb1 : 1 ≤ s.nextLoadCount := by
    rw [hbatch]
    exact le_max_right _ _
  have hdivM : 3 * s.maxCacheCount / 10 < s.maxCacheCount + 1 :=
    (Nat.div_lt_iff_lt_mul (by omega)).mpr (by omega)
  have hbM : s.nextLoadCount ≤ s.maxCacheCount := by
    rw [hbatch]
    exact max_le (by omega) hmax
  have hlen : s.synchronizedFrames.length = s.maxCacheCount := by
    rw [hframes, List.length_map, List.length_range']
  have hlen2 : ((List.range' (cs + s.nextLoadCount)
      (s.maxCacheCount - s.nextLoadCount)).map
        (fun i => (i, g i))).length = s.maxCacheCount - s.nextLoadCount := by
    rw [List.length_map, List.length_range']
  have hevict : evictRange s.synchronizedFrames cs (cs + s.nextLoadCount) =
      (List.range' (cs + s.nextLoadCount)
        (s.maxCacheCount - s.nextLoadCount)).map (fun i => (i, g i)) := by
    rw [hframes, evictRange_mapped,
      range'_filter_evict s.nextLoadCount cs s.maxCacheCount hbM]
  have hbody : throttleBody (s.frameIndex - s.nextLoadCount) s =
      .ok { s with
        synchronizedFrames :=
          (List.range' (cs + s.nextLoadCount)
            (s.maxCacheCount - s.nextLoadCount)).map (fun i => (i, g i))
        cacheStart := some (cs + s.nextLoadCount) } := by
    unfold throttleBody
    rw [if_neg hsweep]
    show (if s.currentFrameIndex > s.frameIndex - s.nextLoadCount
      then _ else _) = _
    rw [if_pos hcursor, hcs]
    show Except.ok _ = _
    rw [hevict]
  have hsub_lt : s.maxCacheCount - s.nextLoadCount < s.maxCacheCount :=
    Nat.sub_lt (Nat.lt_of_lt_of_le Nat.zero_lt_one hmax)
      (Nat.lt_of_lt_of_le Nat.zero_lt_one hb1)
  have hdrop : s.synchronizedFrames.length -
      ((List.range' (cs + s.nextLoadCount)
        (s.maxCacheCount - s.nextLoadCount)).map (fun i => (i, g i))).length =
      s.nextLoadCount := by
    rw [hlen2, hlen]
    exact Nat.sub_sub_self hbM
  refine ⟨?_, hlen2, hdrop⟩
  rw [show s.synchronizedFrames.length + 2 =
    s.synchronizedFrames.length + 1 + 1 from rfl]
  unfold throttleLoop
  rw [if_neg (by rw [hlen]; simp)]
  rw [hbody]
  show (if ((List.range' (cs + s.nextLoadCount)
      (s.maxCacheCount - s.nextLoadCount)).map
        (fun i => (i, g i))).length < s.synchronizedFrames.length
    then _ else _) = _
  rw [if_pos (by rw [hlen2, hlen]; exact hsub_lt)]
  unfold throttleLoop
  rw [if_pos (by
    right
    show _ < ({ s with
      synchronizedFrames :=
        (List.range' (cs + s.nextLoadCount)
          (s.maxCacheCount - s.nextLoadCount)).map (fun i => (i, g i))
      cacheStart := some (cs + s.nextLoadCount) } : LoadState).maxCacheCount
    rw [hlen2]
    exact hsub_lt)]

def c4Group (i : Nat) : FrameGroup := ⟨some (33000000 * (i : Int)), []⟩

def c4WitnessState : LoadState :=
  { maxCacheCount := 10, nextLoadCount := 3, toleranceNs := 3000000
    synchronizedFrames := (List.range' 5 10).map (fun i => (i, c4Group i))
    indexTimeDict := [], cacheStart := some 5
    cacheEnd := 14, currentFrameIndex := 13, targetFrame := 0
    videoFrameCount := 20, currentGroup := [], currentBaseTime := some 0
    frameIndex := 15 }

theorem c4_witness :
    throttleLoop false (c4WitnessState.frameIndex - c4WitnessState.nextLoadCount)
        (c4WitnessState.synchronizedFrames.length + 2) c4WitnessState =
      .next { c4WitnessState with
        synchronizedFrames :=
          (List.range' (5 + c4WitnessState.nextLoadCount)
            (c4WitnessState.maxCacheCount - c4WitnessState.nextLoadCount)).map
              (fun i => (i, c4Group i))
        cacheStart := some (5 + c4WitnessState.nextLoadCount) } ∧
    ((List.range' (5 + c4WitnessState.nextLoadCount)
        (c4WitnessState.maxCacheCount - c4WitnessState.nextLoadCount)).map
          (fun i => (i, c4Group i))).length =
      c4WitnessState.maxCacheCount - c4WitnessState.nextLoadCount ∧
    c4WitnessState.synchronizedFrames.length -
        ((List.range' (5 + c4WitnessState.nextLoadCount)
          (c4WitnessState.maxCacheCount - c4WitnessState.nextLoadCount)).map
            (fun i => (i, c4Group i))).length =
      c4WitnessState.nextLoadCount :=
  c4_steady_state_trim c4WitnessState 5 c4Group rfl rfl (by decide) (by decide)
    (by decide) (by decide)

/-! ### C6: time-to-index resolution -/

theorem collectTimes_mapped :
    ∀ (entries : List (Nat × Int)),
      collectTimes (entries.map (fun kv => (kv.1, some kv.2))) = some entries := by
  intro entries
  induction entries with
  | nil => rfl
  | cons kv rest ih =>
    rw [List.map_cons]
    unfold collectTimes
    rw [ih]

theorem foldl_minBy_facts (timeNs : Int) :
    ∀ (l : List (Nat × Int)) (acc : Nat × Int),
      (l.foldl (fun acc x =>
          if |x.2 - timeNs| < |acc.2 - timeNs| then x else acc) acc = acc ∨
        l.foldl (fun acc x =>
          if |x.2 - timeNs| < |acc.2 - timeNs| then x else acc) acc ∈ l) ∧
      |(l.foldl (fun acc x =>
          if |x.2 - timeNs| < |acc.2 - timeNs| then x else acc) acc).2 - timeNs| ≤
        |acc.2 - timeNs| ∧
      ∀ x ∈ l,
        |(l.foldl (fun acc x =>
            if |x.2 - timeNs| < |acc.2 - timeNs| then x else acc) acc).2 -
          timeNs| ≤ |x.2 - timeNs| := by
  intro l
  induction l with
  | nil =>
    intro acc
    refine ⟨Or.inl rfl, le_refl _, ?_⟩
    intro x hx
    cases hx
  | cons y l ih =>
    intro acc
    rw [List.foldl_cons]
    by_cases hy : |y.2 - timeNs| < |acc.2 - timeNs|
    · rw [if_pos hy]
      obtain ⟨hmem, hle, hall⟩ := ih y
      refine ⟨?_, ?_, ?_⟩
      · rcases hmem with h | h
        · rw [h]
          exact Or.inr (List.mem_cons_self _ _)
        · exact Or.inr (List.mem_cons_of_mem _ h)
      · exact le_trans hle (le_of_lt hy)
      · intro x hx
        rcases List.mem_cons.mp hx with h | h
        · subst h
          exact hle
        · exact hall x h
    · rw [if_neg hy]
      obtain ⟨hmem, hle, hall⟩ := ih acc
      refine ⟨?_, ?_, ?_⟩
      · rcases hmem with h | h
        · exact Or.inl h
        · exact Or.inr (List.mem_cons_of_mem _ h)
      · exact hle
      · intro x hx
        rcases List.mem_cons.mp hx with h | h
        · subst h
          exact le_trans hle (not_lt.mp hy)
        · exact hall x h

theorem foldl_minBy_last (timeNs : Int) :
    ∀ (l : List (Nat × Int)) (acc : Nat × Int),
      List.Chain' (fun a b : Nat × Int => a.2 < b.2) (acc :: l) →
      (∀ x ∈ acc :: l, x.2 < timeNs) →
      l.foldl (fun acc x =>
          if |x.2 - timeNs| < |acc.2 - timeNs| then x else acc) acc =
        (acc :: l).getLast (List.cons_ne_nil _ _) := by
  intro l
  induction l with
  | nil =>
    intro acc _ _
    rfl
  | cons y l ih =>
    intro acc hchain hlt
    rw [List.foldl_cons]
    have h1 : acc.2 < y.2 := (List.chain'_cons.mp hchain).1
    have h2 : y.2 < timeNs :=
      hlt y (List.mem_cons_of_mem _ (List.mem_cons_self _ _))
    have h3 : acc.2 < timeNs := hlt acc (List.mem_cons_self _ _)
    have hy : |y.2 - timeNs| < |acc.2 - timeNs| := by
      rw [abs_of_neg (by omega), abs_of_neg (by omega)]
      omega
    have hall : ∀ x ∈ y :: l, x.2 < timeNs := by
      intro x hx
      exact hlt x (List.mem_cons_of_mem _ hx)
    rw [if_pos hy, ih y (List.chain'_cons.mp hchain).2 hall]
    exact (List.getLast_cons (List.cons_ne_nil _ _)).symm

set_option maxHeartbeats 2000000 in
/-- C6: once loading has started (`cache_start` set) and the
index-to-timestamp map is non-empty (with every base time recorded),
`get_index_by_time` returns a known frame index whose recorded timestamp
has minimal absolute distance to the query; and when the query exceeds the
newest recorded timestamp (with timestamps increasing along the map), the
returned index is the last known frame and `target_frame` is clamped to
`video_frame_count - 1`. -/
theorem c6_get_index_by_time (s : LoadState) (timeNs : Int)
    (entries : List (Nat × Int))
    (hdict : s.indexTimeDict = entries.map (fun kv => (kv.1, some kv.2)))
    (hne : entries ≠ [])
    (hcs : s.cacheStart.isSome = true) :
    (∃ kv s', kv ∈ entries ∧
      (∀ x ∈ entries, |kv.2 - timeNs| ≤ |x.2 - timeNs|) ∧
      getIndexByTime s timeNs = .ok (some kv.1, s')) ∧
    (List.Chain' (fun a b : Nat × Int => a.2 < b.2) entries →
      (∀ x ∈ entries, x.2 < timeNs) →
      getIndexByTime s timeNs =
        .ok (some ((entries.getLast hne).1),
          { s with targetFrame := s.videoFrameCount - 1 })) := by
  cases entries with
  | nil => exact absurd rfl hne
  | cons kv0 rest =>
    obtain ⟨m, hm⟩ : ∃ m, ((kv0 :: rest).map Prod.snd).max? = some m := by
      cases hmq : ((kv0 :: rest).map Prod.snd).max? with
      | none => exact absurd (List.max?_eq_none_iff.mp hmq) (by simp)
      | some m => exact ⟨m, rfl⟩
    have hcompute : getIndexByTime s timeNs =
        .ok (some ((rest.foldl (fun acc x =>
            if |x.2 - timeNs| < |acc.2 - timeNs| then x else acc) kv0).1),
          if timeNs > m then { s with targetFrame := s.videoFrameCount - 1 }
          else s) := by
      simp only [getIndexByTime, hcs, if_true, hdict, collectTimes_mapped, hm,
        pyMinByDist]
    obtain ⟨hmem, hle, hall⟩ := foldl_minBy_facts timeNs rest kv0
    constructor
    · refine ⟨rest.foldl (fun acc x =>
        if |x.2 - timeNs| < |acc.2 - timeNs| then x else acc) kv0,
        (if timeNs > m then { s with targetFrame := s.videoFrameCount - 1 }
          else s), ?_, ?_, hcompute⟩
      · rcases hmem with h | h
        · rw [h]
          exact List.mem_cons_self _ _
        · exact List.mem_cons_of_mem _ h
      · intro x hx
        rcases List.mem_cons.mp hx with h | h
        · subst h
          exact hle
        · exact hall x h
    · intro hchain hlt
      have hmmem : m ∈ (kv0 :: rest).map Prod.snd :=
        List.max?_mem (fun a b => max_choice a b) hm
      have hmlt : timeNs > m := by
        rcases List.mem_map.mp hmmem with ⟨x, hx, hxm⟩
        rw [← hxm]
        exact hlt x hx
      rw [hcompute, if_pos hmlt,
        foldl_minBy_last timeNs rest kv0 hchain hlt]

def c6WitnessEntries : List (Nat × Int) := [(0, 10), (1, 20)]

def c6WitnessState : LoadState :=
  { maxCacheCount := 300, nextLoadCount := 90, toleranceNs := 3000000
    synchronizedFrames := [], cacheStart := some 0
    indexTimeDict := c6WitnessEntries.map (fun kv => (kv.1, some kv.2))
    cacheEnd := 1, currentFrameIndex := 0, targetFrame := 0
    videoFrameCount := 5, currentGroup := [], currentBaseTime := some 20
    frameIndex := 2 }

theorem c6_witness :
    getIndexByTime c6WitnessState 100 =
      .ok (some ((c6WitnessEntries.getLast (by decide)).1),
        { c6WitnessState with
          targetFrame := c6WitnessState.videoFrameCount - 1 }) :=
  (c6_get_index_by_time c6WitnessState 100 c6WitnessEntries rfl (by decide)
    rfl).2 (List.chain'_cons.mpr ⟨by decide, List.chain'_singleton _⟩)
    (by decide)

/-! ### C3: Scenario A — one topic, 100 messages 33 ms apart -/

/-- The `i`-th Scenario A message: single video topic, mono8 1×1 payload,
timestamps 33 ms apart. -/
def scenarioAMsg (i : Nat) : Msg :=
  ⟨"foxglove.RawImage", "/cam", (i : Int) * 33000000, .rawImage 1 1 "mono8" [7]⟩

/-- Scenario A producer inputs: no stop request, consumer idle. -/
def scenarioAInputs : List (Msg × Env) :=
  (List.range 100).map (fun i => (scenarioAMsg i, ⟨false, 0, 0⟩))

/-- A fresh reader with the default capacity 300 (batch 90) and the default
3 ms tolerance. -/
def scenarioAState : LoadState :=
  { maxCacheCount := 300, nextLoadCount := 90, toleranceNs := 3000000
    synchronizedFrames := [], indexTimeDict := [], cacheStart := none
    cacheEnd := 0, currentFrameIndex := 0, targetFrame := 0
    videoFrameCount := 99, currentGroup := [], currentBaseTime := none
    frameIndex := 0 }

/-- The final state of `load_frames` on Scenario A. -/
def scenarioARun : LoadState :=
  loadRun (fun _ => none) (loadFramesInit scenarioAState 0) scenarioAInputs

set_option maxRecDepth 4096 in
/-- C3 counterexample: the Scenario A run does not leave 100 FrameGroups in
the cache — the 100th group is still open when the message stream ends and
is never sealed. -/
theorem c3_counterexample : scenarioARun.synchronizedFrames.length ≠ 100 := by
  decide

set_option maxRecDepth 4096 in
/-- C3 (amended): Scenario A produces exactly 99 sealed FrameGroups (the
final group stays open and is dropped at end of stream), each containing
exactly the single subscribed topic. -/
theorem c3_amended :
    scenarioARun.synchronizedFrames.length = 99 ∧
    ∀ kv ∈ scenarioARun.synchronizedFrames,
      kv.2.topics.map Prod.fst = ["/cam"] := by
  decide

end DataCollection
